import Mathlib

/-!
Verification development for the effect-analysis core of the bundler's
`Identifier` AST node (src/unnamed/part_000). The definitions below are a
shallow embedding of that file: AST nodes keep their `type`/`start`/`parent`
data plus a synthetic `nodeId` modelling JavaScript object identity, variable
bindings keep the fields the embedded methods read, and methods that mutate
per-node state (the cached TDZ verdict, the `deoptimized` and `included`
flags) are written as explicit state-passing functions. Calls into
collaborators that live outside the excerpt (consolidateInitializers,
requestTreeshakingPass, includeVariableInModule, markInitializersForDeoptimization)
are recorded as counted events so that theorems can speak about how often they
happen.
-/

/-- AST node with parent links, as consumed by `closestParentFunctionOrProgram`.
The `nodeId` field models JavaScript reference identity of node objects; the
two constructors model a node with and without a parent. -/
inductive AstNode : Type where
  | root (nodeId : Nat) (nodeType : String) (start : Nat)
  | child (nodeId : Nat) (nodeType : String) (start : Nat) (parent : AstNode)

def AstNode.nodeId : AstNode → Nat
  | .root i _ _ => i
  | .child i _ _ _ => i

def AstNode.nodeType : AstNode → String
  | .root _ t _ => t
  | .child _ t _ _ => t

def AstNode.start : AstNode → Nat
  | .root _ _ s => s
  | .child _ _ s _ => s

/-- Unanchored substring test on character lists, used to model the
unanchored regular-expression alternative `Function`. -/
def listContainsInfix (pat : List Char) : List Char → Bool
  | [] => List.isPrefixOf pat []
  | c :: rest => List.isPrefixOf pat (c :: rest) || listContainsInfix pat rest

/-- Test for the regular expression `^Program|Function` used by
`closestParentFunctionOrProgram`: the type either starts with `Program` or
contains `Function` anywhere. -/
def isProgramOrFunctionNodeType (t : String) : Bool :=
  List.isPrefixOf ("Program".toList) t.toList || listContainsInfix ("Function".toList) t.toList

/-- Embeds the module-level helper `closestParentFunctionOrProgram`: walk the
parent chain upward until a node whose type matches `^Program|Function` is
found, returning `none` when the chain is exhausted. -/
def closestParentFunctionOrProgram : AstNode → Option AstNode
  | AstNode.root i t s =>
      if isProgramOrFunctionNodeType t then some (AstNode.root i t s) else none
  | AstNode.child i t s p =>
      if isProgramOrFunctionNodeType t then some (AstNode.child i t s p)
      else closestParentFunctionOrProgram p

/-- JavaScript `===` on the (possibly null) results of
`closestParentFunctionOrProgram`, modelled through the synthetic node ids. -/
def sameClosestParentFunctionOrProgram (a b : AstNode) : Bool :=
  Option.map AstNode.nodeId (closestParentFunctionOrProgram a)
    == Option.map AstNode.nodeId (closestParentFunctionOrProgram b)

/-- Result of `getLiteralValueAtPath`: either a statically known value
(abstracted to a tag) or the unknown marker. -/
inductive LiteralValueOrUnknown : Type where
  | unknownValue : LiteralValueOrUnknown
  | knownValue (tag : Nat) : LiteralValueOrUnknown

/-- Expression entity returned by `getReturnExpressionWhenCalledAtPath`:
either the distinguished `UNKNOWN_EXPRESSION` or some other expression entity
abstracted to a tag. -/
inductive ExpressionRef : Type where
  | unknownExpression : ExpressionRef
  | expr (tag : Nat) : ExpressionRef

/-- LocalVariable binding: the fields of the variable store that the embedded
`Identifier` methods read, plus the variable's own answers to the literal and
call-return queries (abstracted as functions, since LocalVariable's
implementations are outside the excerpt). -/
structure LocalVariable : Type where
  kind : Option String
  declarations : List AstNode
  initReached : Bool
  litAt : List String → LiteralValueOrUnknown
  retAt : List String → ExpressionRef × Bool

/-- GlobalVariable binding: `unknownAccessEffect` is its answer to
`hasEffectsOnInteractionAtPath(EMPTY_PATH, NODE_INTERACTION_UNKNOWN_ACCESS, context)`. -/
structure GlobalVariable : Type where
  unknownAccessEffect : Bool
  litAt : List String → LiteralValueOrUnknown
  retAt : List String → ExpressionRef × Bool

/-- Variable bindings an identifier can resolve to; `instanceof LocalVariable`
and `instanceof GlobalVariable` become constructor tests. Other variable
classes of the store are collapsed into `otherV` with their query behavior. -/
inductive Variable : Type where
  | localV : LocalVariable → Variable
  | globalV : GlobalVariable → Variable
  | otherV : (List String → LiteralValueOrUnknown) → (List String → ExpressionRef × Bool) → Variable

def Variable.litAt : Variable → List String → LiteralValueOrUnknown
  | .localV lv, p => lv.litAt p
  | .globalV gv, p => gv.litAt p
  | .otherV f _, p => f p

def Variable.retAt : Variable → List String → ExpressionRef × Bool
  | .localV lv, p => lv.retAt p
  | .globalV gv, p => gv.retAt p
  | .otherV _ g, p => g p

/-- Node of the manual-pure-functions registry: the `[PureFunctionKey]` flag
plus the nested children keyed by property name. -/
inductive PureFunctionsNode : Type where
  | mk (pureFlag : Bool) (children : List (String × PureFunctionsNode))

def PureFunctionsNode.pureFlag : PureFunctionsNode → Bool
  | .mk b _ => b

def PureFunctionsNode.children : PureFunctionsNode → List (String × PureFunctionsNode)
  | .mk _ c => c

/-- Loop body of `Identifier.isPureFunction`: starting from the registry node
for the identifier name, walk the path; before consuming each segment, a set
`[PureFunctionKey]` flag returns true immediately; a missing node returns
false; after the last segment the final node's flag is the answer. -/
def isPureFunctionFrom : Option PureFunctionsNode → List String → Bool
  | current, [] =>
      match current with
      | some n => n.pureFlag
      | none => false
  | current, seg :: rest =>
      match current with
      | some n =>
          if n.pureFlag then true
          else isPureFunctionFrom (n.children.lookup seg) rest
      | none => false

/-- Embeds `Identifier.isPureFunction(path)`, with the identifier name and the
configured registry (`this.context.manualPureFunctions`) made explicit. -/
def isPureFunction (registry : List (String × PureFunctionsNode)) (name : String)
    (path : List String) : Bool :=
  isPureFunctionFrom (registry.lookup name) path

/-- Normalized treeshaking options read by the embedded methods. -/
structure TreeshakeOptions : Type where
  correctVarValueBeforeDeclaration : Bool
  unknownGlobalSideEffects : Bool

/-- Analysis context: the slice of `this.context` the embedded methods use.
`treeshake` is `none` when treeshaking is disabled (the JS value `false`). -/
structure AnalysisContext : Type where
  treeshake : Option TreeshakeOptions
  manualPureFunctions : List (String × PureFunctionsNode)
  moduleId : String

/-- Reading `treeshake.correctVarValueBeforeDeclaration` under the JS guard
`treeshake && treeshake.correctVarValueBeforeDeclaration`. -/
def treeshakeCorrectVarValueBeforeDeclaration : Option TreeshakeOptions → Bool
  | some t => t.correctVarValueBeforeDeclaration
  | none => false

/-- Reading `(treeshake as NormalizedTreeshakingOptions).unknownGlobalSideEffects`;
on the JS value `false` the property access yields `undefined`, i.e. false. -/
def treeshakeUnknownGlobalSideEffects : Option TreeshakeOptions → Bool
  | some t => t.unknownGlobalSideEffects
  | none => false

/-- Per-node state of an `Identifier` AST node: its name, its own AST node
data (source position and parent chain), the resolved variable, the cached
TDZ verdict `isTDZAccess`, the `deoptimized` and `included` flags, and the
result of `this.scope.contains(this.name)` abstracted as a field. -/
structure Identifier : Type where
  name : String
  node : AstNode
  variableRef : Option Variable
  isTDZAccess : Option Bool
  deoptimized : Bool
  included : Bool
  scopeContainsName : Bool

/-- Kinds participating in TDZ semantics (the `tdzVariableKinds` object). -/
def tdzVariableKinds : List String := ["class", "const", "let", "var"]

/-- Declaration-site test of `isPossibleTDZ`: exactly one declaration, the
access starts before it, and both have the same closest enclosing
function-or-program node. -/
def tdzDeclarationCheck (node : AstNode) (decls : List AstNode) : Bool :=
  match decls with
  | [d] => decide (node.start < d.start) && sameClosestParentFunctionOrProgram node d
  | _ => false

/-- Uncached computation of `isPossibleTDZ` (every return of the source method
both caches and returns, so the method is this computation plus the cache).
A non-LocalVariable, an unset kind, or a kind outside `tdzVariableKinds`
yields false; then the declaration-site test, then the `initReached` test.
The JS falsy test `!this.variable.kind` also rejects the empty string, which
is subsumed by the membership test. -/
def isPossibleTDZCompute (node : AstNode) (variableRef : Option Variable) : Bool :=
  match variableRef with
  | some (Variable.localV lv) =>
      match lv.kind with
      | some k =>
          if !(tdzVariableKinds.contains k) then false
          else if tdzDeclarationCheck node lv.declarations then true
          else if !lv.initReached then true
          else false
      | none => false
  | _ => false

/-- Embeds `Identifier.isPossibleTDZ`: return the cached verdict when present,
otherwise compute it, cache it and return it. -/
def Identifier.isPossibleTDZ (id : Identifier) : Bool × Identifier :=
  match id.isTDZAccess with
  | some b => (b, id)
  | none =>
      let b := isPossibleTDZCompute id.node id.variableRef
      (b, { id with isTDZAccess := some b })

/-- Counted calls into collaborators outside the excerpt. -/
structure Events : Type where
  consolidations : Nat
  passRequests : Nat
  variableInclusions : Nat

def noEvents : Events := { consolidations := 0, passRequests := 0, variableInclusions := 0 }

/-- Embeds `Identifier.applyDeoptimizations`: set the `deoptimized` flag and,
for a LocalVariable, consolidate its initializers and request another
treeshaking pass (recorded as events). -/
def Identifier.applyDeoptimizations (id : Identifier) : Identifier × Events :=
  let id2 := { id with deoptimized := true }
  match id2.variableRef with
  | some (Variable.localV _) =>
      (id2, { consolidations := 1, passRequests := 1, variableInclusions := 0 })
  | _ => (id2, noEvents)

/-- The `if (!this.deoptimized) this.applyDeoptimizations();` prelude shared
by `hasEffects` and `include`. -/
def Identifier.ensureDeoptimized (id : Identifier) : Identifier × Events :=
  if id.deoptimized then (id, noEvents) else Identifier.applyDeoptimizations id

/-- The resolved variable's `kind` as read through `this.variable!.kind`
(a non-LocalVariable binding reports the base-class value null). -/
def variableKind : Option Variable → Option String
  | some (Variable.localV lv) => lv.kind
  | _ => none

/-- The `this.variable instanceof GlobalVariable` test. -/
def isGlobalVariableRef : Option Variable → Bool
  | some (Variable.globalV _) => true
  | _ => false

/-- The resolved global variable's answer to
`hasEffectsOnInteractionAtPath(EMPTY_PATH, NODE_INTERACTION_UNKNOWN_ACCESS, context)`. -/
def globalUnknownAccessEffect : Option Variable → Bool
  | some (Variable.globalV gv) => gv.unknownAccessEffect
  | _ => false

/-- Embeds `Identifier.hasEffects`: after ensuring deoptimizations were
applied, a TDZ-positive access on a non-`var` binding is an effect; otherwise
the unknown-global-side-effects policy applies. -/
def Identifier.hasEffects (ctx : AnalysisContext) (id : Identifier) : Bool × Identifier × Events :=
  let step := Identifier.ensureDeoptimized id
  let tdzStep := Identifier.isPossibleTDZ step.fst
  if tdzStep.fst && !(variableKind (tdzStep.snd).variableRef == some "var") then
    (true, tdzStep.snd, step.snd)
  else
    ((treeshakeUnknownGlobalSideEffects ctx.treeshake
        && isGlobalVariableRef (tdzStep.snd).variableRef
        && !(isPureFunction ctx.manualPureFunctions (tdzStep.snd).name [])
        && globalUnknownAccessEffect (tdzStep.snd).variableRef),
      tdzStep.snd, step.snd)

/-- Embeds `Identifier.include` (named `includeNode` because `include` is a
Lean keyword): ensure deoptimizations, then on first inclusion set the flag
and include the resolved variable in the module (recorded as an event). -/
def Identifier.includeNode (id : Identifier) : Identifier × Events :=
  let step := Identifier.ensureDeoptimized id
  if (step.fst).included then step
  else
    let id2 := { step.fst with included := true }
    match id2.variableRef with
    | some _ =>
        (id2, { step.snd with variableInclusions := (step.snd).variableInclusions + 1 })
    | none => (id2, step.snd)

/-- The illegal-import-reassignment error raised through
`this.context.error(errorIllegalImportReassignment(this.name, this.context.module.id), this.start)`. -/
structure IllegalImportReassignment : Type where
  name : String
  moduleId : String
  pos : Nat

/-- What `Identifier.deoptimizePath` does when it returns normally: the
optional-chaining call `this.variable?.deoptimizePath(path)`. -/
inductive DeoptAction : Type where
  | delegatedToVariable : Variable → List String → DeoptAction
  | noVariable : DeoptAction

/-- Embeds `Identifier.deoptimizePath`: an empty path on a name the scope does
not contain raises the illegal-reassignment error (which never returns);
otherwise deoptimization is delegated to the resolved variable, if any. -/
def Identifier.deoptimizePath (ctx : AnalysisContext) (id : Identifier) (path : List String) :
    Except IllegalImportReassignment DeoptAction :=
  if path.length = 0 && !id.scopeContainsName then
    Except.error { name := id.name, moduleId := ctx.moduleId, pos := id.node.start }
  else
    match id.variableRef with
    | some v => Except.ok (DeoptAction.delegatedToVariable v path)
    | none => Except.ok DeoptAction.noVariable

/-- Scope collaborator for `Identifier.declare`: `addDeclaration` receives the
`isHoisted` flag (true only for `var`) and yields the registered variable;
`addParameterDeclaration` is the FunctionScope entry point for parameters. -/
structure Scope : Type where
  addDeclaration : Bool → LocalVariable
  addParameterDeclaration : LocalVariable

/-- Whether `declare` called `variable.markInitializersForDeoptimization()`. -/
structure DeclareEffects : Type where
  markedInitializersForDeoptimization : Bool

/-- Shared tail of every recognized `declare` branch: set `variable.kind` to
the declared kind, store the variable on the identifier and return it as a
one-element list, together with the recorded marking event. -/
def declareWith (id : Identifier) (v : LocalVariable) (kind : String) (marked : Bool) :
    Except String (List LocalVariable × Identifier × DeclareEffects) :=
  let v2 := { v with kind := some kind }
  Except.ok ([v2], { id with variableRef := some (Variable.localV v2) },
    { markedInitializersForDeoptimization := marked })

/-- The internal-error message thrown on an unrecognized declaration kind. -/
def unexpectedKindMessage (kind : String) : String :=
  "Internal Error: Unexpected identifier kind " ++ kind ++ "."

/-- The kinds handled by the `switch` of `Identifier.declare`. -/
def recognizedDeclarationKinds : List String :=
  ["var", "function", "let", "const", "class", "parameter"]

/-- Embeds `Identifier.declare` (the `switch` becomes an if-chain): `var`
declarations are hoisted and, when the `correctVarValueBeforeDeclaration`
treeshaking option is active, mark their initializers for deoptimization;
the other recognized kinds register plain or parameter declarations; an
unrecognized kind throws the internal error. -/
def Identifier.declare (ctx : AnalysisContext) (scope : Scope) (id : Identifier)
    (kind : String) : Except String (List LocalVariable × Identifier × DeclareEffects) :=
  if kind = "var" then
    declareWith id (scope.addDeclaration true) kind
      (treeshakeCorrectVarValueBeforeDeclaration ctx.treeshake)
  else if kind = "function" then declareWith id (scope.addDeclaration false) kind false
  else if kind = "let" then declareWith id (scope.addDeclaration false) kind false
  else if kind = "const" then declareWith id (scope.addDeclaration false) kind false
  else if kind = "class" then declareWith id (scope.addDeclaration false) kind false
  else if kind = "parameter" then declareWith id scope.addParameterDeclaration kind false
  else Except.error (unexpectedKindMessage kind)

/-- Expression entity an identifier answers value queries against: either the
distinguished `UNKNOWN_EXPRESSION` or the resolved variable. -/
inductive EntityRef : Type where
  | unknownExpression : EntityRef
  | variableEntity : Variable → EntityRef

/-- Modelled from the spec: `UNKNOWN_EXPRESSION` lives outside the excerpt;
per the expression-entity protocol it answers every literal query with the
unknown marker, while a variable entity answers with its own result. -/
def EntityRef.getLiteralValueAtPath : EntityRef → List String → LiteralValueOrUnknown
  | .unknownExpression, _ => LiteralValueOrUnknown.unknownValue
  | .variableEntity v, p => v.litAt p

/-- Modelled from the spec: `UNKNOWN_EXPRESSION` resolves every call-return
query to the unknown expression with no purity knowledge, while a variable
entity answers with its own result. -/
def EntityRef.getReturnExpressionWhenCalledAtPath : EntityRef → List String → ExpressionRef × Bool
  | .unknownExpression, _ => (ExpressionRef.unknownExpression, false)
  | .variableEntity v, p => v.retAt p

/-- Embeds `Identifier.getVariableRespectingTDZ`: the unknown expression for a
TDZ-positive access, otherwise the resolved variable (null maps to `none`). -/
def Identifier.getVariableRespectingTDZ (id : Identifier) : Option EntityRef × Identifier :=
  let s := Identifier.isPossibleTDZ id
  if s.fst then (some EntityRef.unknownExpression, s.snd)
  else ((s.snd).variableRef.map EntityRef.variableEntity, s.snd)

/-- Embeds `Identifier.getLiteralValueAtPath`: delegate to the entity chosen
by `getVariableRespectingTDZ`; `none` models the non-null assertion failing. -/
def Identifier.getLiteralValueAtPath (id : Identifier) (path : List String) :
    Option LiteralValueOrUnknown × Identifier :=
  let s := Identifier.getVariableRespectingTDZ id
  match s.fst with
  | some r => (some (EntityRef.getLiteralValueAtPath r path), s.snd)
  | none => (none, s.snd)

/-- Embeds `Identifier.getReturnExpressionWhenCalledAtPath`: delegate to the
entity chosen by `getVariableRespectingTDZ` and weaken its purity bit with
the manual-pure-functions lookup at the same path. -/
def Identifier.getReturnExpressionWhenCalledAtPath (ctx : AnalysisContext) (id : Identifier)
    (path : List String) : Option (ExpressionRef × Bool) × Identifier :=
  let s := Identifier.getVariableRespectingTDZ id
  match s.fst with
  | some r =>
      let rp := EntityRef.getReturnExpressionWhenCalledAtPath r path
      (some (rp.fst, rp.snd || isPureFunction ctx.manualPureFunctions (s.snd).name path), s.snd)
  | none => (none, s.snd)

/-- Registry lookup that follows the whole path and only succeeds when every
segment is present; this is the reading the specification describes for the
purity registry ("absence of a segment at any depth means not configured
pure"). Used to compare the specification against `isPureFunction`. -/
def lookupPath : Option PureFunctionsNode → List String → Option PureFunctionsNode
  | none, _ => none
  | some n, [] => some n
  | some n, seg :: rest => lookupPath (n.children.lookup seg) rest

/-- The pure flag of an optional registry node (absent means not pure). -/
def optPureFlag : Option PureFunctionsNode → Bool
  | some n => n.pureFlag
  | none => false

/-- Purity as the specification words it: the node reached by walking the
entire queried path is present and explicitly flagged pure. -/
def purityAtExactPath (registry : List (String × PureFunctionsNode)) (name : String)
    (path : List String) : Bool :=
  optPureFlag (lookupPath (registry.lookup name) path)

/-- Variable query behavior that answers every query conservatively. -/
def unknownLitFun : List String → LiteralValueOrUnknown :=
  fun _ => LiteralValueOrUnknown.unknownValue

/-- Conservative call-return behavior. -/
def unknownRetFun : List String → ExpressionRef × Bool :=
  fun _ => (ExpressionRef.unknownExpression, false)

/-- A module `Program` node. -/
def programNode : AstNode := AstNode.root 0 "Program" 0

/-- Declaration-site identifier at offset 50 inside the program. -/
def declarationNode : AstNode := AstNode.child 2 "Identifier" 50 programNode

/-- Accessing identifier at offset 10 inside the same program. -/
def accessNode : AstNode := AstNode.child 1 "Identifier" 10 programNode

/-- A `const` binding declared once at offset 50, not yet reached. -/
def constLocal : LocalVariable :=
  { kind := some "const", declarations := [declarationNode], initReached := false,
    litAt := unknownLitFun, retAt := unknownRetFun }

/-- A `var` binding declared once at offset 50, not yet reached. -/
def varLocal : LocalVariable :=
  { kind := some "var", declarations := [declarationNode], initReached := false,
    litAt := unknownLitFun, retAt := unknownRetFun }

/-- A reached `let` binding with no recorded declaration site. -/
def reachedNoDeclLocal : LocalVariable :=
  { kind := some "let", declarations := [], initReached := true,
    litAt := unknownLitFun, retAt := unknownRetFun }

/-- A kindless variable as produced by the scope before `declare` sets the kind. -/
def blankLocal : LocalVariable :=
  { kind := none, declarations := [], initReached := false,
    litAt := unknownLitFun, retAt := unknownRetFun }

/-- Treeshaking options with both embedded flags enabled. -/
def defaultTreeshake : TreeshakeOptions :=
  { correctVarValueBeforeDeclaration := true, unknownGlobalSideEffects := true }

/-- Context with treeshaking on and an empty purity registry. -/
def baseContext : AnalysisContext :=
  { treeshake := some defaultTreeshake, manualPureFunctions := [], moduleId := "main" }

/-- Context with treeshaking disabled (the JS option value `false`). -/
def ctxNoTreeshake : AnalysisContext :=
  { treeshake := none, manualPureFunctions := [], moduleId := "main" }

/-- Context whose registry flags the bare name `x` as pure at its root. -/
def ctxPureX : AnalysisContext :=
  { treeshake := some defaultTreeshake,
    manualPureFunctions := [("x", PureFunctionsNode.mk true [])], moduleId := "main" }

/-- Registry flagging `f` pure at its root, with no nested entries. -/
def pureRegistryF : List (String × PureFunctionsNode) := [("f", PureFunctionsNode.mk true [])]

/-- Identifier `x` reading the `const` binding before its declaration,
with no cached TDZ verdict yet. -/
def freshConstIdentifier : Identifier :=
  { name := "x", node := accessNode, variableRef := some (Variable.localV constLocal),
    isTDZAccess := none, deoptimized := false, included := false, scopeContainsName := true }

/-- Identifier `v` reading the `var` binding before its declaration,
with no cached TDZ verdict yet. -/
def freshVarIdentifier : Identifier :=
  { name := "v", node := accessNode, variableRef := some (Variable.localV varLocal),
    isTDZAccess := none, deoptimized := false, included := false, scopeContainsName := true }

/-- The state of `freshConstIdentifier` after its first `isPossibleTDZ` query,
subsequently mutated: the binding was replaced by a reached `let` with no
recorded declaration site (so a fresh computation would answer false). -/
def mutatedAfterFirstQuery : Identifier :=
  { (Identifier.isPossibleTDZ freshConstIdentifier).snd with
    variableRef := some (Variable.localV reachedNoDeclLocal) }

/-- Identifier whose name is not contained in its scope chain, resolved to a
non-local non-global binding (an import binding seen through its module). -/
def importBoundIdentifier : Identifier :=
  { name := "x", node := accessNode,
    variableRef := some (Variable.otherV unknownLitFun unknownRetFun),
    isTDZAccess := none, deoptimized := false, included := false, scopeContainsName := false }

/-- An ambient binding that reports an effect for an unknown access. -/
def globalBinding : GlobalVariable :=
  { unknownAccessEffect := true, litAt := unknownLitFun, retAt := unknownRetFun }

/-- Bare reference `foo` resolved to the ambient binding. -/
def globalIdentifier : Identifier :=
  { name := "foo", node := accessNode, variableRef := some (Variable.globalV globalBinding),
    isTDZAccess := none, deoptimized := false, included := false, scopeContainsName := false }

/-- Scope collaborator fixture handing out kindless fresh variables. -/
def scopeFixture : Scope :=
  { addDeclaration := fun _ => blankLocal, addParameterDeclaration := blankLocal }

/-- Every branch of `isPossibleTDZ` caches the verdict it returns. -/
theorem isPossibleTDZ_snd (id : Identifier) :
    (Identifier.isPossibleTDZ id).snd
      = { id with isTDZAccess := some (Identifier.isPossibleTDZ id).fst } := by
  obtain ⟨nm, nd, vr, tz, dp, inc, sc⟩ := id
  cases tz <;> simp [Identifier.isPossibleTDZ]

/-- A cached verdict is returned unchanged together with the unchanged state. -/
theorem isPossibleTDZ_cached (id : Identifier) (b : Bool) (h : id.isTDZAccess = some b) :
    Identifier.isPossibleTDZ id = (b, id) := by
  simp [Identifier.isPossibleTDZ, h]

/-- The verdict of `isPossibleTDZ` does not depend on the `deoptimized` flag. -/
theorem isPossibleTDZ_fst_deoptimized (id : Identifier) (b : Bool) :
    (Identifier.isPossibleTDZ { id with deoptimized := b }).fst
      = (Identifier.isPossibleTDZ id).fst := by
  obtain ⟨nm, nd, vr, tz, dp, inc, sc⟩ := id
  cases tz <;> simp [Identifier.isPossibleTDZ]

/-- `applyDeoptimizations` always returns the state with `deoptimized` set. -/
theorem applyDeoptimizations_fst (id : Identifier) :
    (Identifier.applyDeoptimizations id).fst = { id with deoptimized := true } := by
  cases hv : id.variableRef with
  | none => simp [Identifier.applyDeoptimizations, hv]
  | some v => cases v <;> simp [Identifier.applyDeoptimizations, hv]

/-- `ensureDeoptimized` always returns the state with `deoptimized` set. -/
theorem ensureDeoptimized_fst (id : Identifier) :
    (Identifier.ensureDeoptimized id).fst = { id with deoptimized := true } := by
  obtain ⟨nm, nd, vr, tz, dp, inc, sc⟩ := id
  cases dp with
  | false => simp [Identifier.ensureDeoptimized, applyDeoptimizations_fst]
  | true => simp [Identifier.ensureDeoptimized]

/-- The boolean result of `hasEffects`, expressed over the input state: the
deoptimization prelude and the TDZ cache write do not change the verdict. -/
theorem hasEffects_fst (ctx : AnalysisContext) (id : Identifier) :
    (Identifier.hasEffects ctx id).fst
      = (if (Identifier.isPossibleTDZ id).fst
            && !(variableKind id.variableRef == some "var") then true
         else (treeshakeUnknownGlobalSideEffects ctx.treeshake
            && isGlobalVariableRef id.variableRef
            && !(isPureFunction ctx.manualPureFunctions id.name [])
            && globalUnknownAccessEffect id.variableRef)) := by
  obtain ⟨nm, nd, vr, tz, dp, inc, sc⟩ := id
  cases dp with
  | true =>
      cases tz <;>
        simp [Identifier.hasEffects, Identifier.ensureDeoptimized,
          Identifier.applyDeoptimizations, Identifier.isPossibleTDZ, apply_ite Prod.fst]
  | false =>
      cases vr with
      | none =>
          cases tz <;>
            simp [Identifier.hasEffects, Identifier.ensureDeoptimized,
              Identifier.applyDeoptimizations, Identifier.isPossibleTDZ, apply_ite Prod.fst]
      | some v =>
          cases v <;> cases tz <;>
            simp [Identifier.hasEffects, Identifier.ensureDeoptimized,
              Identifier.applyDeoptimizations, Identifier.isPossibleTDZ, apply_ite Prod.fst]

/-- The events of `hasEffects` are exactly the deoptimization-prelude events. -/
theorem hasEffects_events (ctx : AnalysisContext) (id : Identifier) :
    (Identifier.hasEffects ctx id).snd.snd = (Identifier.ensureDeoptimized id).snd := by
  simp only [Identifier.hasEffects]
  split <;> rfl

/-- Propositional reading of the declaration-site test. -/
theorem tdzDeclarationCheck_iff (node : AstNode) (decls : List AstNode) :
    tdzDeclarationCheck node decls = true
      ↔ ∃ d, decls = [d] ∧ node.start < d.start
          ∧ sameClosestParentFunctionOrProgram node d = true := by
  cases decls with
  | nil => simp [tdzDeclarationCheck]
  | cons d rest =>
      cases rest with
      | nil => simp [tdzDeclarationCheck]
      | cons e rest2 => simp [tdzDeclarationCheck]

/-- Propositional reading of the uncached TDZ computation. -/
theorem isPossibleTDZCompute_iff (node : AstNode) (vref : Option Variable) :
    isPossibleTDZCompute node vref = true
      ↔ ∃ lv, vref = some (Variable.localV lv)
          ∧ (∃ k, lv.kind = some k ∧ k ∈ tdzVariableKinds)
          ∧ (tdzDeclarationCheck node lv.declarations = true ∨ lv.initReached = false) := by
  cases vref with
  | none => simp [isPossibleTDZCompute]
  | some v =>
      cases v with
      | localV lv =>
          cases hk : lv.kind with
          | none => simp [isPossibleTDZCompute, hk]
          | some k =>
              by_cases hc : k ∈ tdzVariableKinds
              · have hc2 : tdzVariableKinds.contains k = true := by simpa using hc
                by_cases hd : tdzDeclarationCheck node lv.declarations = true
                · simp [isPossibleTDZCompute, hk, hc2, hd, hc]
                · by_cases hi : lv.initReached = true
                  · simp [isPossibleTDZCompute, hk, hc2, hd, hi, hc]
                  · simp [isPossibleTDZCompute, hk, hc2, hd, hi, hc]
              · have hc2 : tdzVariableKinds.contains k = false := by simpa using hc
                simp [isPossibleTDZCompute, hk, hc2, hc]
      | globalV gv => simp [isPossibleTDZCompute]
      | otherV f g => simp [isPossibleTDZCompute]

/-- The purity walk starting from an arbitrary registry node succeeds exactly
when some prefix of the path resolves fully through the registry to a node
whose pure flag is set. -/
theorem isPureFunctionFrom_iff (p : List String) (c : Option PureFunctionsNode) :
    isPureFunctionFrom c p = true
      ↔ ∃ j, j ≤ p.length ∧ optPureFlag (lookupPath c (p.take j)) = true := by
  induction p generalizing c with
  | nil =>
      cases c with
      | none => simp [isPureFunctionFrom, lookupPath, optPureFlag]
      | some n => simp [isPureFunctionFrom, lookupPath, optPureFlag, Nat.le_zero]
  | cons s rest ih =>
      cases c with
      | none => simp [isPureFunctionFrom, lookupPath, optPureFlag]
      | some n =>
          by_cases hp : n.pureFlag = true
          · constructor
            · intro _
              exact ⟨0, Nat.zero_le _, by simpa [lookupPath, optPureFlag] using hp⟩
            · intro _
              simp [isPureFunctionFrom, hp]
          · have hstep : isPureFunctionFrom (some n) (s :: rest)
                = isPureFunctionFrom (n.children.lookup s) rest := by
              simp [isPureFunctionFrom, hp]
            rw [hstep, ih (n.children.lookup s)]
            constructor
            · rintro ⟨j, hj, hflag⟩
              refine ⟨j + 1, by simpa using Nat.succ_le_succ hj, ?_⟩
              simpa [lookupPath] using hflag
            · rintro ⟨j, hj, hflag⟩
              cases j with
              | zero => simp [lookupPath, optPureFlag, hp] at hflag
              | succ j2 =>
                  refine ⟨j2, ?_, ?_⟩
                  · simpa using Nat.le_of_succ_le_succ hj
                  · simpa [lookupPath] using hflag

/-- C1 (counterexample): the claim fails on the code. `freshVarIdentifier`
reads a `var` binding before its declaration, so its TDZ verdict is positive,
yet `hasEffects` returns false: the guard `kind !== 'var'` excludes
function-scoped bindings from the unconditional-effect rule, and the
fall-through global check is false for a local binding. -/
theorem identifier_tdz_var_hasEffects_counterexample :
    (Identifier.isPossibleTDZ freshVarIdentifier).fst = true
      ∧ variableKind freshVarIdentifier.variableRef = some "var"
      ∧ (Identifier.hasEffects baseContext freshVarIdentifier).fst = false := by
  exact ⟨rfl, rfl, rfl⟩

/-- C1 (amended): a positive TDZ verdict makes `hasEffects` return true for
every binding whose kind is not `var`; function-scoped (`var`) bindings are
excluded from this rule. -/
theorem identifier_tdz_nonvar_hasEffects (ctx : AnalysisContext) (id : Identifier)
    (h1 : (Identifier.isPossibleTDZ id).fst = true)
    (h2 : variableKind id.variableRef ≠ some "var") :
    (Identifier.hasEffects ctx id).fst = true := by
  have h2b : (variableKind id.variableRef == some "var") = false := by simpa using h2
  simp [hasEffects_fst, h1, h2b]

/-- C1 (witness): the amended theorem applied to a TDZ-positive `const`
access. -/
theorem identifier_tdz_nonvar_hasEffects_witness :
    (Identifier.isPossibleTDZ freshConstIdentifier).fst = true
      ∧ variableKind freshConstIdentifier.variableRef ≠ some "var"
      ∧ (Identifier.hasEffects baseContext freshConstIdentifier).fst = true :=
  ⟨rfl, by decide,
    identifier_tdz_nonvar_hasEffects baseContext freshConstIdentifier rfl (by decide)⟩

/-- C2: on the first query (no cached verdict), `isPossibleTDZ` returns true
exactly when the identifier resolved to a LocalVariable whose kind is one of
`let`, `const`, `class`, `var`, and either the single-declaration
position-and-boundary test holds or the variable's `initReached` flag is
still false; in all other cases it returns false. -/
theorem identifier_isPossibleTDZ_characterization (id : Identifier)
    (h : id.isTDZAccess = none) :
    (Identifier.isPossibleTDZ id).fst = true
      ↔ ∃ lv, id.variableRef = some (Variable.localV lv)
          ∧ (∃ k, lv.kind = some k ∧ k ∈ tdzVariableKinds)
          ∧ ((∃ d, lv.declarations = [d] ∧ id.node.start < d.start
                ∧ sameClosestParentFunctionOrProgram id.node d = true)
             ∨ lv.initReached = false) := by
  have hfst : (Identifier.isPossibleTDZ id).fst
      = isPossibleTDZCompute id.node id.variableRef := by
    simp [Identifier.isPossibleTDZ, h]
  rw [hfst, isPossibleTDZCompute_iff]
  constructor
  · rintro ⟨lv, hv, hkind, hcond⟩
    exact ⟨lv, hv, hkind,
      hcond.imp (fun hd => (tdzDeclarationCheck_iff id.node lv.declarations).mp hd)
        (fun x => x)⟩
  · rintro ⟨lv, hv, hkind, hcond⟩
    exact ⟨lv, hv, hkind,
      hcond.imp (fun hd => (tdzDeclarationCheck_iff id.node lv.declarations).mpr hd)
        (fun x => x)⟩

/-- C2 (witness): a `const` read at offset 10 whose single declaration sits at
offset 50 under the same Program node is flagged TDZ-positive on its first
query. -/
theorem identifier_isPossibleTDZ_characterization_witness :
    freshConstIdentifier.isTDZAccess = none
      ∧ (Identifier.isPossibleTDZ freshConstIdentifier).fst = true :=
  ⟨rfl, (identifier_isPossibleTDZ_characterization freshConstIdentifier rfl).mpr
    ⟨constLocal, rfl, ⟨"const", rfl, by decide⟩,
      Or.inl ⟨declarationNode, rfl, by decide, by decide⟩⟩⟩

/-- C3 (counterexample): the claim fails on the code. With `f` flagged pure at
its root and nothing nested, the query at path `["log"]` is pure even though
the segment `log` is absent from the registry at depth one: a pure flag on a
strict prefix already suppresses effects. -/
theorem isPureFunction_prefix_counterexample :
    isPureFunction pureRegistryF "f" ["log"] = true
      ∧ lookupPath (pureRegistryF.lookup "f") ["log"] = none
      ∧ purityAtExactPath pureRegistryF "f" ["log"] = false := by
  exact ⟨rfl, rfl, rfl⟩

/-- C3 (amended): the purity check returns true exactly when some prefix of
the queried path (possibly the whole path) resolves fully through the
registry, segment by segment from the identifier name, to a node explicitly
flagged pure; if a segment is missing before any pure flag is reached, the
result is non-pure. -/
theorem isPureFunction_prefix_characterization
    (registry : List (String × PureFunctionsNode)) (name : String) (path : List String) :
    isPureFunction registry name path = true
      ↔ ∃ j, j ≤ path.length ∧ purityAtExactPath registry name (path.take j) = true := by
  unfold isPureFunction purityAtExactPath
  exact isPureFunctionFrom_iff path (registry.lookup name)

/-- C4: `deoptimizePath` with the empty path on a name not contained in the
scope chain raises the illegal-reassignment error carrying the identifier
name, the owning module id and the source position, and does not return
normally; for a contained name the deoptimization is delegated to the
resolved variable. -/
theorem identifier_deoptimizePath_import_reassignment (ctx : AnalysisContext)
    (id : Identifier) (path : List String) (v : Variable) :
    (id.scopeContainsName = false →
        Identifier.deoptimizePath ctx id []
          = Except.error { name := id.name, moduleId := ctx.moduleId, pos := id.node.start })
      ∧ (id.scopeContainsName = true → id.variableRef = some v →
          Identifier.deoptimizePath ctx id path
            = Except.ok (DeoptAction.delegatedToVariable v path)) := by
  constructor
  · intro h
    simp [Identifier.deoptimizePath, h]
  · intro h hv
    simp [Identifier.deoptimizePath, h, hv]

/-- C4 (witness): the theorem applied to an out-of-scope import binding and to
an in-scope `const` binding. -/
theorem identifier_deoptimizePath_import_reassignment_witness :
    Identifier.deoptimizePath baseContext importBoundIdentifier []
        = Except.error { name := "x", moduleId := "main", pos := 10 }
      ∧ Identifier.deoptimizePath baseContext freshConstIdentifier ["p"]
        = Except.ok (DeoptAction.delegatedToVariable (Variable.localV constLocal) ["p"]) :=
  ⟨(identifier_deoptimizePath_import_reassignment baseContext importBoundIdentifier []
      (Variable.otherV unknownLitFun unknownRetFun)).1 rfl,
    (identifier_deoptimizePath_import_reassignment baseContext freshConstIdentifier ["p"]
      (Variable.localV constLocal)).2 rfl rfl⟩

/-- C5: once `isPossibleTDZ` has answered, any later state that carries the
cache written by that first call — whatever else changed in between,
including the resolved variable and its `initReached` flag — answers the
same verdict. -/
theorem identifier_isPossibleTDZ_cached_stable (id id2 : Identifier)
    (h : id2.isTDZAccess = ((Identifier.isPossibleTDZ id).snd).isTDZAccess) :
    (Identifier.isPossibleTDZ id2).fst = (Identifier.isPossibleTDZ id).fst := by
  rw [isPossibleTDZ_snd] at h
  have h2 : id2.isTDZAccess = some (Identifier.isPossibleTDZ id).fst := by simpa using h
  rw [isPossibleTDZ_cached id2 _ h2]

/-- C5 (witness): after the first query on the early `const` access, the
binding is swapped for a reached `let` with no declaration site (for which a
fresh computation would answer false), yet the verdict stays true. -/
theorem identifier_isPossibleTDZ_cached_stable_witness :
    mutatedAfterFirstQuery.isTDZAccess
        = ((Identifier.isPossibleTDZ freshConstIdentifier).snd).isTDZAccess
      ∧ isPossibleTDZCompute mutatedAfterFirstQuery.node mutatedAfterFirstQuery.variableRef
        = false
      ∧ (Identifier.isPossibleTDZ mutatedAfterFirstQuery).fst
        = (Identifier.isPossibleTDZ freshConstIdentifier).fst :=
  ⟨rfl, rfl,
    identifier_isPossibleTDZ_cached_stable freshConstIdentifier mutatedAfterFirstQuery rfl⟩

/-- C6: for an identifier whose TDZ verdict is negative, `hasEffects` is true
exactly when the unknown-global-side-effects option is on, the identifier
resolved to a GlobalVariable, it is not registered pure at the empty path,
and the global binding reports an effect for an unknown access at the empty
path. -/
theorem identifier_hasEffects_global_policy (ctx : AnalysisContext) (id : Identifier)
    (h : (Identifier.isPossibleTDZ id).fst = false) :
    (Identifier.hasEffects ctx id).fst
      = (treeshakeUnknownGlobalSideEffects ctx.treeshake
          && isGlobalVariableRef id.variableRef
          && !(isPureFunction ctx.manualPureFunctions id.name [])
          && globalUnknownAccessEffect id.variableRef) := by
  simp [hasEffects_fst, h]

/-- C6 (witness): a bare reference to the ambient binding `foo` with the
option enabled is flagged as an effect. -/
theorem identifier_hasEffects_global_policy_witness :
    (Identifier.isPossibleTDZ globalIdentifier).fst = false
      ∧ (Identifier.hasEffects baseContext globalIdentifier).fst = true := by
  refine ⟨rfl, ?_⟩
  rw [identifier_hasEffects_global_policy baseContext globalIdentifier rfl]
  rfl

/-- C7: the first inclusion of an identifier bound to a LocalVariable
consolidates the variable's initializers once and requests one extra
treeshaking pass; a second inclusion and any effect check after the first
trigger neither again. -/
theorem identifier_include_consolidates_once (id : Identifier) (lv : LocalVariable)
    (h1 : id.deoptimized = false) (h2 : id.variableRef = some (Variable.localV lv))
    (h3 : id.included = false) :
    (Identifier.includeNode id).snd.consolidations = 1
      ∧ (Identifier.includeNode id).snd.passRequests = 1
      ∧ (Identifier.includeNode (Identifier.includeNode id).fst).snd = noEvents
      ∧ ∀ ctx : AnalysisContext,
          (Identifier.hasEffects ctx (Identifier.includeNode id).fst).snd.snd = noEvents := by
  obtain ⟨nm, nd, vr, tz, dp, inc, sc⟩ := id
  simp only [Identifier.deoptimized] at h1
  simp only [Identifier.variableRef] at h2
  simp only [Identifier.included] at h3
  subst h1
  subst h2
  subst h3
  refine ⟨?_, ?_, ?_, fun ctx => ?_⟩ <;>
    simp [Identifier.includeNode, Identifier.ensureDeoptimized,
      Identifier.applyDeoptimizations, hasEffects_events, noEvents]

/-- C7 (witness): the theorem applied to the early `const` access. -/
theorem identifier_include_consolidates_once_witness :
    (Identifier.includeNode freshConstIdentifier).snd.consolidations = 1
      ∧ (Identifier.includeNode freshConstIdentifier).snd.passRequests = 1
      ∧ (Identifier.includeNode (Identifier.includeNode freshConstIdentifier).fst).snd
        = noEvents
      ∧ (Identifier.hasEffects baseContext
          (Identifier.includeNode freshConstIdentifier).fst).snd.snd = noEvents := by
  have h := identifier_include_consolidates_once freshConstIdentifier constLocal rfl rfl rfl
  exact ⟨h.1, h.2.1, h.2.2.1, h.2.2.2 baseContext⟩

/-- C8: `declare` with a kind outside the recognized set throws the internal
error; with a recognized kind it returns a one-element list holding a
variable whose kind field equals the declared kind. -/
theorem identifier_declare_kind_handling (ctx : AnalysisContext) (scope : Scope)
    (id : Identifier) (kind : String) :
    (kind ∈ recognizedDeclarationKinds →
        ∃ v id2 eff, Identifier.declare ctx scope id kind = Except.ok ([v], id2, eff)
          ∧ v.kind = some kind)
      ∧ (kind ∉ recognizedDeclarationKinds →
          Identifier.declare ctx scope id kind = Except.error (unexpectedKindMessage kind)) := by
  constructor
  · intro hmem
    simp only [recognizedDeclarationKinds, List.mem_cons, List.mem_singleton,
      List.not_mem_nil, or_false] at hmem
    rcases hmem with rfl | rfl | rfl | rfl | rfl | rfl <;> exact ⟨_, _, _, rfl, rfl⟩
  · intro hmem
    simp only [recognizedDeclarationKinds, List.mem_cons, List.mem_singleton,
      List.not_mem_nil, or_false, not_or] at hmem
    obtain ⟨n1, n2, n3, n4, n5, n6⟩ := hmem
    simp [Identifier.declare, n1, n2, n3, n4, n5, n6]

/-- C8 (witness): the theorem applied to the recognized kind `let` and to an
unrecognized kind. -/
theorem identifier_declare_kind_handling_witness :
    (∃ v id2 eff, Identifier.declare baseContext scopeFixture freshConstIdentifier "let"
        = Except.ok ([v], id2, eff) ∧ v.kind = some "let")
      ∧ Identifier.declare baseContext scopeFixture freshConstIdentifier "unknownKind"
        = Except.error (unexpectedKindMessage "unknownKind") :=
  ⟨(identifier_declare_kind_handling baseContext scopeFixture freshConstIdentifier "let").1
      (by decide),
    (identifier_declare_kind_handling baseContext scopeFixture freshConstIdentifier
      "unknownKind").2 (by decide)⟩

/-- C9 (counterexample): the claim fails on the code. With treeshaking
disabled, declaring `var` does not mark the initializers for deoptimization:
the marking is guarded by the `correctVarValueBeforeDeclaration` option. -/
theorem identifier_declare_var_marking_counterexample :
    Identifier.declare ctxNoTreeshake scopeFixture freshConstIdentifier "var"
      = Except.ok ([{ blankLocal with kind := some "var" }],
          { freshConstIdentifier with
            variableRef := some (Variable.localV { blankLocal with kind := some "var" }) },
          { markedInitializersForDeoptimization := false }) := rfl

/-- C9 (amended): a successful `declare` marks the initializers for
deoptimization exactly when the declared kind is `var` and the
`correctVarValueBeforeDeclaration` treeshaking option is active; the other
kinds never mark. -/
theorem identifier_declare_marking_characterization (ctx : AnalysisContext) (scope : Scope)
    (id : Identifier) (kind : String) (vs : List LocalVariable) (id2 : Identifier)
    (eff : DeclareEffects)
    (h : Identifier.declare ctx scope id kind = Except.ok (vs, id2, eff)) :
    eff.markedInitializersForDeoptimization
      = (kind == "var" && treeshakeCorrectVarValueBeforeDeclaration ctx.treeshake) := by
  by_cases k1 : kind = "var"
  · subst k1
    simp [Identifier.declare, declareWith] at h
    rw [← h.2.2]
    simp
  · have kb : (kind == "var") = false := by simpa using k1
    by_cases k2 : kind = "function"
    · subst k2
      simp [Identifier.declare, declareWith] at h
      rw [← h.2.2, kb]
      simp
    · by_cases k3 : kind = "let"
      · subst k3
        simp [Identifier.declare, declareWith] at h
        rw [← h.2.2, kb]
        simp
      · by_cases k4 : kind = "const"
        · subst k4
          simp [Identifier.declare, declareWith] at h
          rw [← h.2.2, kb]
          simp
        · by_cases k5 : kind = "class"
          · subst k5
            simp [Identifier.declare, declareWith] at h
            rw [← h.2.2, kb]
            simp
          · by_cases k6 : kind = "parameter"
            · subst k6
              simp [Identifier.declare, declareWith] at h
              rw [← h.2.2, kb]
              simp
            · simp [Identifier.declare, k1, k2, k3, k4, k5, k6] at h

/-- C9 (witness): the amended theorem applied to a `var` declaration with the
option active. -/
theorem identifier_declare_marking_characterization_witness :
    ({ markedInitializersForDeoptimization := true } : DeclareEffects).markedInitializersForDeoptimization
      = ("var" == "var" && treeshakeCorrectVarValueBeforeDeclaration baseContext.treeshake) :=
  identifier_declare_marking_characterization baseContext scopeFixture freshConstIdentifier
    "var" [{ blankLocal with kind := some "var" }]
    { freshConstIdentifier with
      variableRef := some (Variable.localV { blankLocal with kind := some "var" }) }
    { markedInitializersForDeoptimization := true } rfl

/-- C10: on a TDZ-positive access, `getLiteralValueAtPath` answers through the
unknown expression (unknown at every path) instead of the resolved variable,
and `getReturnExpressionWhenCalledAtPath` resolves its returned expression to
the unknown expression while its purity bit is exactly the manual
pure-functions lookup at the queried path. -/
theorem identifier_tdz_value_queries_unknown (ctx : AnalysisContext) (id : Identifier)
    (path : List String) (h : (Identifier.isPossibleTDZ id).fst = true) :
    (Identifier.getLiteralValueAtPath id path).fst = some LiteralValueOrUnknown.unknownValue
      ∧ (Identifier.getReturnExpressionWhenCalledAtPath ctx id path).fst
        = some (ExpressionRef.unknownExpression,
            isPureFunction ctx.manualPureFunctions id.name path) := by
  have hg : (Identifier.getVariableRespectingTDZ id).fst = some EntityRef.unknownExpression := by
    simp [Identifier.getVariableRespectingTDZ, h]
  have hname : ((Identifier.getVariableRespectingTDZ id).snd).name = id.name := by
    simp [Identifier.getVariableRespectingTDZ, isPossibleTDZ_snd, h]
  constructor
  · simp [Identifier.getLiteralValueAtPath, hg, EntityRef.getLiteralValueAtPath]
  · simp [Identifier.getReturnExpressionWhenCalledAtPath, hg, hname,
      EntityRef.getReturnExpressionWhenCalledAtPath]

/-- C10 (witness): the TDZ-positive `const` access answers unknown for the
literal query, and with `x` registered pure the call-return purity bit is
true. -/
theorem identifier_tdz_value_queries_unknown_witness :
    (Identifier.getLiteralValueAtPath freshConstIdentifier ["p"]).fst
        = some LiteralValueOrUnknown.unknownValue
      ∧ (Identifier.getReturnExpressionWhenCalledAtPath ctxPureX freshConstIdentifier ["p"]).fst
        = some (ExpressionRef.unknownExpression, true) := by
  have h := identifier_tdz_value_queries_unknown ctxPureX freshConstIdentifier ["p"] rfl
  have e : isPureFunction ctxPureX.manualPureFunctions freshConstIdentifier.name ["p"]
      = true := rfl
  rw [e] at h
  exact h
